import Mathlib

/-!
Verification development for the UM-32 universal machine implementation in
`um-32.c`.  The C program keeps its state in globals `PC` (uint64_t),
`R[8]` (uint32_t), a growable array `M` of `Mem` records
(`{uint32_t *inst; size_t len; bool active;}`), `memarr_count` and `halted`.
We embed the heap explicitly: every `uint32_t *` buffer obtained from
`xmalloc`/`xcalloc` is an index into a store `buffers : List (List Nat)`,
so pointer aliasing between `Mem` records (as produced by the `LOAD_PROG`
case, which copies only the pointer) is represented faithfully.  Reads or
writes beyond an allocated buffer, and reads of `M[idx]` beyond
`memarr_count` entries, are undefined behavior in C; the step function
returns the distinguished outcome `Outcome.ub` there.  The `EXCEPTION`
macro (print diagnostics, then `assert(false)`) is the outcome
`Outcome.fault`, tagged with the call site that raised it.
-/

/-- Word bound 2^32: all register and segment words are uint32_t values. -/
def W32 : Nat := 4294967296

/-- PC bound 2^64: the program counter is a uint64_t. -/
def W64 : Nat := 18446744073709551616

/-- Mem record from `um-32.c`: `inst` is modelled as an index (`ptr`) into the
buffer store, `len` is the recorded word count, `active` the activity flag. -/
structure MemRec where
  ptr : Nat
  len : Nat
  active : Bool
deriving DecidableEq, Repr

/-- Default used for `List.getD` on the `M` table; never reached on the
defined-behavior paths because out-of-range `M[idx]` accesses return `ub`
before any field is used. -/
def mem0 : MemRec := ⟨0, 0, false⟩

/-- The global machine state of `um-32.c`: `PC`, `R`, `M`, `memarr_count`,
`halted`, plus the heap of word buffers and the process's console streams
(`input` = bytes getchar will yield; `output` = bytes written so far). -/
structure Machine where
  PC : Nat
  R : List Nat
  M : List MemRec
  memarrCount : Nat
  halted : Bool
  buffers : List (List Nat)
  input : List Nat
  output : List Nat
deriving DecidableEq, Repr

/-- State of `um_32_spin_cycle`: the globals plus the local `Mem m0 = M[0]`
taken once before the while loop.  The loop's PC bounds check and its fetch
both go through this cached copy, never through `M[0]` itself. -/
structure SpinState where
  mach : Machine
  m0 : MemRec
deriving DecidableEq, Repr

/-- Entry of `um_32_spin_cycle`: capture the cached copy `Mem m0 = M[0]`. -/
def spinStart (m : Machine) : SpinState := ⟨m, m.M.getD 0 mem0⟩

/-- Call sites of the `EXCEPTION` macro in `um_32_spin_cycle`. -/
inductive ExSite where
  | pcCheck
  | indexCheck
  | amendCheck
  | abandonCheck
  | badOpcode
deriving DecidableEq, Repr

/-- Result of one iteration of the while loop in `um_32_spin_cycle`. -/
inductive Outcome where
  | running (s : SpinState)
  | fault (site : ExSite) (inst : Nat)
  | ub
deriving DecidableEq, Repr

/-- Opcode field: `(inst >> 28) & 0xf`. -/
def opnum (inst : Nat) : Nat := (inst >>> 28) &&& 15

/-- Register field A (standard form): `(inst >> 6) & 0x7`, bits 8..6. -/
def reg_a (inst : Nat) : Nat := (inst >>> 6) &&& 7

/-- Register field B (standard form): `(inst >> 3) & 0x7`, bits 5..3. -/
def reg_b (inst : Nat) : Nat := (inst >>> 3) &&& 7

/-- Register field C (standard form): `inst & 0x7`, bits 2..0. -/
def reg_c (inst : Nat) : Nat := inst &&& 7

/-- Register field A of the special-form opcode 13: `(inst >> 25) & 0x7`. -/
def orthog_reg_a (inst : Nat) : Nat := (inst >>> 25) &&& 7

/-- Immediate value of the special-form opcode 13: `inst & 0x1ffffff`. -/
def orthog_val (inst : Nat) : Nat := inst &&& 33554431

/-- Read register `i`; in the C code every register index is a 3-bit field,
so the default branch of `getD` is unreachable. -/
def getR (R : List Nat) (i : Nat) : Nat := R.getD i 0

/-- Decimal digits of `n` as ASCII byte values. -/
def decBytes (n : Nat) : List Nat := (Nat.toDigits 10 n).map Char.toNat

/-- Rendering of a uint32 value under printf's `%d` (glibc behavior: the bit
pattern is read back as a signed 32-bit int). -/
def printfD (v : Nat) : List Nat :=
  if v < 2147483648 then decBytes v else 45 :: decBytes (W32 - v)

/-- Byte values of a string literal. -/
def strBytes (s : String) : List Nat := s.data.map Char.toNat

/-- Bytes printed by the `printf` in the `ALLOC` case:
`"Allocating memory (%d -> %d) %d bytes.\n"` applied to the old count, the
new count, and the (wrapped) byte size. -/
def allocMsg (a b c : Nat) : List Nat :=
  strBytes ("Allocating memory (") ++ printfD a ++ strBytes (" -> ") ++
    printfD b ++ strBytes (") ") ++ printfD c ++ strBytes (" bytes.\n")

/-- ASCII code of a lowercase hex digit, as produced by `%x`. -/
def hexDigit (n : Nat) : Nat := if n < 10 then 48 + n else 87 + n

/-- Bytes printed by `printf("0x%02x", c)` for `c` in `[0, 255]`. -/
def hexOut (c : Nat) : List Nat := [48, 120, hexDigit (c / 16), hexDigit (c % 16)]

/-- Model of `isprint` in the default C locale: printable ASCII is
0x20 .. 0x7e.  `isprint`'s argument must be representable as `unsigned char`
(or be EOF); the `OUTPUT` case guards this by returning `ub` for register
values above 255 before this predicate is consulted. -/
def isprintC (c : Nat) : Bool := 32 ≤ c && c ≤ 126

/-- One iteration of the while loop of `um_32_spin_cycle`, translated case by
case from the C `switch`.  The bounds check and the fetch use the cached
`s.m0`, exactly as the C loop does; `LOAD_PROG` updates `M[0]` but not the
cache. -/
def um_32_step (s : SpinState) : Outcome :=
  let mach := s.mach
  let buf := mach.buffers.getD s.m0.ptr []
  if s.m0.len ≤ mach.PC then .fault .pcCheck 0
  else if buf.length ≤ mach.PC then .ub
  else
    let inst := buf.getD mach.PC 0
    let PC1 := (mach.PC + 1) % W64
    let op := opnum inst
    let a := reg_a inst
    let b := reg_b inst
    let c := reg_c inst
    let R := mach.R
    if op = 0 then
      let R2 := if getR R c ≠ 0 then R.set a (getR R b) else R
      .running ⟨{ mach with PC := PC1, R := R2 }, s.m0⟩
    else if op = 1 then
      let idx := getR R b
      if mach.M.length ≤ idx then .ub
      else
        let md := mach.M.getD idx mem0
        if md.active = false ∨ mach.memarrCount - 1 < idx then .fault .indexCheck inst
        else
          let off := getR R c
          let sbuf := mach.buffers.getD md.ptr []
          if sbuf.length ≤ off then .ub
          else .running ⟨{ mach with PC := PC1, R := R.set a (sbuf.getD off 0) }, s.m0⟩
    else if op = 2 then
      let idx := getR R a
      if mach.M.length ≤ idx then .ub
      else
        let md := mach.M.getD idx mem0
        if md.active = false ∨ mach.memarrCount - 1 < idx then .fault .amendCheck inst
        else
          let off := getR R b
          let sbuf := mach.buffers.getD md.ptr []
          if sbuf.length ≤ off then .ub
          else
            let bufs2 := mach.buffers.set md.ptr (sbuf.set off (getR R c))
            .running ⟨{ mach with PC := PC1, buffers := bufs2 }, s.m0⟩
    else if op = 3 then
      .running ⟨{ mach with PC := PC1, R := R.set a ((getR R b + getR R c) % W32) }, s.m0⟩
    else if op = 4 then
      .running ⟨{ mach with PC := PC1, R := R.set a ((getR R b * getR R c) % W32) }, s.m0⟩
    else if op = 5 then
      if getR R c = 0 then .ub
      else .running ⟨{ mach with PC := PC1, R := R.set a (getR R b / getR R c) }, s.m0⟩
    else if op = 6 then
      .running ⟨{ mach with PC := PC1, R := R.set a ((getR R b &&& getR R c) ^^^ 4294967295) }, s.m0⟩
    else if op = 7 then
      .running ⟨{ mach with PC := PC1, halted := true }, s.m0⟩
    else if op = 8 then
      let sz := getR R c
      let nbytes := (4 * sz) % W32
      let newCount := (mach.memarrCount + 1) % W32
      let out2 := mach.output ++ allocMsg mach.memarrCount newCount nbytes
      let M2 := mach.M ++ [⟨mach.buffers.length, sz, true⟩]
      let bufs2 := mach.buffers ++ [List.replicate (nbytes / 4) 0]
      .running ⟨{ mach with PC := PC1, output := out2, memarrCount := newCount, M := M2, buffers := bufs2, R := R.set b (newCount - 1) }, s.m0⟩
    else if op = 9 then
      let idx := getR R c
      if idx = 0 then .fault .abandonCheck inst
      else if mach.M.length ≤ idx then .ub
      else if (mach.M.getD idx mem0).active = false then .fault .abandonCheck inst
      else
        let M2 := mach.M.set idx { mach.M.getD idx mem0 with active := false }
        .running ⟨{ mach with PC := PC1, M := M2 }, s.m0⟩
    else if op = 10 then
      let cv := getR R c
      if 256 ≤ cv then .ub
      else if isprintC cv then
        .running ⟨{ mach with PC := PC1, output := mach.output ++ [cv] }, s.m0⟩
      else
        .running ⟨{ mach with PC := PC1, output := mach.output ++ hexOut cv }, s.m0⟩
    else if op = 11 then
      match mach.input with
      | [] => .running ⟨{ mach with PC := PC1, R := R.set c 4294967295 }, s.m0⟩
      | byte :: rest =>
        .running ⟨{ mach with PC := PC1, R := R.set c (byte &&& 255), input := rest }, s.m0⟩
    else if op = 12 then
      let idx := getR R b
      if mach.M.length ≤ idx then .ub
      else
        let md := mach.M.getD idx mem0
        let old0 := mach.M.getD 0 mem0
        let M2 := mach.M.set 0 ⟨md.ptr, md.len, old0.active⟩
        .running ⟨{ mach with PC := getR R c, M := M2 }, s.m0⟩
    else if op = 13 then
      .running ⟨{ mach with PC := PC1, R := R.set (orthog_reg_a inst) (orthog_val inst) }, s.m0⟩
    else .fault .badOpcode inst

/-- Big-endian assembly of 4-byte groups into words, as in `um_32_init`. -/
def wordsOfBytes : List Nat → List Nat
  | b0 :: b1 :: b2 :: b3 :: rest =>
    (b0 <<< 24 ||| b1 <<< 16 ||| b2 <<< 8 ||| b3) :: wordsOfBytes rest
  | _ => []

/-- Initialization `um_32_init`: PC = 0, zeroed registers, segment 0 holds the
program words, `memarr_count = 1`, not halted.  The C code asserts that the
byte count is a nonzero multiple of 4 before this runs; all uses below
satisfy that.  The console input stream starts empty here and is set
explicitly where a scenario needs it. -/
def um_32_init (prog : List Nat) : Machine :=
  { PC := 0
    R := List.replicate 8 0
    M := [⟨0, (wordsOfBytes prog).length, true⟩]
    memarrCount := 1
    halted := false
    buffers := [wordsOfBytes prog]
    input := []
    output := [] }

/-- Run `n` iterations of the loop, stopping (with `none`) if the machine has
halted or an iteration ends in a fault or undefined behavior. -/
def um_32_steps : Nat → SpinState → Option SpinState
  | 0, s => some s
  | n + 1, s =>
    if s.mach.halted then none
    else
      match um_32_step s with
      | .running s2 => um_32_steps n s2
      | _ => none

/-- Classified result of running the loop with fuel `n`. -/
inductive RunResult where
  | more (s : SpinState)
  | halted (s : SpinState)
  | fault (site : ExSite) (inst : Nat)
  | ub
deriving DecidableEq, Repr

/-- Run the loop of `um_32_spin_cycle` with fuel. -/
def um_32_run : Nat → SpinState → RunResult
  | 0, s => .more s
  | n + 1, s =>
    if s.mach.halted then .halted s
    else
      match um_32_step s with
      | .running s2 => um_32_run n s2
      | .fault site inst => .fault site inst
      | .ub => .ub

/-- Standard-form instruction word: opcode plus the three register fields. -/
def stdEnc (op a b c : Nat) : Nat := op <<< 28 ||| a <<< 6 ||| b <<< 3 ||| c

/-- Special-form (opcode 13) instruction word: register plus 25-bit value. -/
def orthogEnc (a v : Nat) : Nat := 13 <<< 28 ||| a <<< 25 ||| v

/-- Big-endian byte image of a word list, the inverse of `wordsOfBytes`,
used to present concrete programs as the startup byte buffer. -/
def bytesOfWords (ws : List Nat) : List Nat :=
  (ws.map (fun w => [w >>> 24 &&& 255, w >>> 16 &&& 255, w >>> 8 &&& 255, w &&& 255])).flatten

/-- Loop state at startup for a program given as a word list. -/
def startOf (ws : List Nat) : SpinState := spinStart (um_32_init (bytesOfWords ws))

/-- Program: allocate a 2-word segment (id 1), store 42 at its offset 0, then
Load Program from id 1 with target PC 0.  Words: `orthog r0 <- 2`;
`alloc R[1] <- alloc(R[0])`; `orthog r2 <- 42`; `amend M[R[1]][R[3]] := R[2]`;
`loadprog(R[1]), PC := R[3]`. -/
def progSelfMod : List Nat :=
  [orthogEnc 0 2, stdEnc 8 0 1 0, orthogEnc 2 42, stdEnc 2 1 3 2, stdEnc 12 0 1 3]

/-- Program: like `progSelfMod` but after the Load Program the next fetched
(stale) instruction writes 42 into segment 1 at offset 0, which now also
backs segment 0. -/
def progAliasWrite : List Nat :=
  [orthogEnc 0 2, stdEnc 8 0 1 0, orthogEnc 2 42, orthogEnc 4 5, stdEnc 12 0 1 4,
    stdEnc 2 1 3 2, stdEnc 7 0 0 0]

/-- Program: set `R[1] = 5`, then Divide `R[0] := R[1] / R[0]` with
`R[0] = 0`. -/
def progDivZero : List Nat := [orthogEnc 1 5, stdEnc 5 0 1 0]

/-- Program: allocate a 1-word segment (id 1), then Segment Read at
offset 5 of it. -/
def progReadPastEnd : List Nat :=
  [orthogEnc 0 1, stdEnc 8 0 1 0, orthogEnc 2 5, stdEnc 1 3 1 2]

/-- Program: allocate a 1-word segment (id 1), then Segment Write at
offset 5 of it. -/
def progWritePastEnd : List Nat :=
  [orthogEnc 0 1, stdEnc 8 0 1 0, orthogEnc 2 5, stdEnc 2 1 2 0]

/-- Program: allocate segment 1, deallocate it, then Load Program from the
now-inactive id 1. -/
def progLoadFreed : List Nat :=
  [orthogEnc 0 1, stdEnc 8 0 1 0, stdEnc 9 0 0 1, stdEnc 12 0 1 0]

/-- Program: load 10 (a newline, not printable) into `R[0]` and Output it. -/
def progOutNewline : List Nat := [orthogEnc 0 10, stdEnc 10 0 0 0, stdEnc 7 0 0 0]

/-- Program: allocate a 1-word segment (id 1), then Load Program from it with
target PC 3, which is out of bounds for the new 1-word segment 0 but inside
the original 4-word segment 0. -/
def progShrinkLoad : List Nat :=
  [orthogEnc 0 1, stdEnc 8 0 1 0, orthogEnc 2 3, stdEnc 12 0 1 2]

/-- Program: compute `R[0] = 32768 * 32768 = 2^30`, allocate a segment of
that many words (the byte count `4 * R[0]` wraps to 0 in uint32), then read
its offset 0. -/
def progHugeAlloc : List Nat :=
  [orthogEnc 0 32768, stdEnc 4 0 0 0, stdEnc 8 0 1 0, stdEnc 1 2 1 3]

/-- Program: set `R[0] = 5` and Deallocate segment id 5 on a fresh machine
whose only segment is segment 0 (`memarr_count = 1`). -/
def progAbandonWild : List Nat := [orthogEnc 0 5, stdEnc 9 0 0 0]

/-- Claim C1: the spec says every fetch while Running reads
`segment[0][PC]`, so the fetch after a Load Program must read the newly
installed segment 0.  The code caches `Mem m0 = M[0]` once before the while
loop and fetches only through that cache, so after `LOAD_PROG` installs a new
segment 0 the next fetch still reads the loop-entry segment 0.  Concretely:
after the 5 steps of `progSelfMod` the word of the current segment 0 at PC is
42 (the newly installed code), the word the loop will actually fetch through
the stale cache is the original first instruction `orthogEnc 0 2`, and the
sixth step indeed executes the latter, setting `R[0] = 2` (instruction 42 is
a CMOV and would have left `R[0] = 0`). -/
theorem loadprog_stale_fetch :
    (um_32_steps 5 (startOf progSelfMod)).map
      (fun s => ((s.mach.buffers.getD (s.mach.M.getD 0 mem0).ptr []).getD s.mach.PC 0,
        (s.mach.buffers.getD s.m0.ptr []).getD s.mach.PC 0)) = some (42, orthogEnc 0 2) ∧
    (um_32_steps 6 (startOf progSelfMod)).map (fun s => getR s.mach.R 0) = some 2 ∧
    orthogEnc 0 2 ≠ 42 := by
  decide

/-- Claim C2: the spec requires `load_program(id)` to install a deep copy, so
a later write through segment `id` must not change segment 0.  The `LOAD_PROG`
case executes `M[0].inst = m.inst` — it copies the pointer, not the contents.
Concretely in `progAliasWrite`: after the Load Program from id 1, segments 0
and 1 share buffer 1 and segment 0's word 0 is 0; the next step writes 42
through segment 1 at offset 0, after which segment 0's word 0 reads 42. -/
theorem loadprog_alias_write :
    (um_32_steps 5 (startOf progAliasWrite)).map
      (fun s => ((s.mach.M.getD 0 mem0).ptr, (s.mach.M.getD 1 mem0).ptr,
        (s.mach.buffers.getD (s.mach.M.getD 0 mem0).ptr []).getD 0 0)) = some (1, 1, 0) ∧
    (um_32_steps 6 (startOf progAliasWrite)).map
      (fun s => (s.mach.buffers.getD (s.mach.M.getD 0 mem0).ptr []).getD 0 0) = some 42 := by
  decide

/-- Claim C3: the spec requires a detected, reported `DivisionByZero` fault
when the divisor register is 0.  The `DIV` case executes
`R[reg_a] = R[reg_b] / R[reg_c]` with no zero check: with `R[C] = 0` this is
undefined behavior in C (an unhandled hardware trap on common hosts), not the
`EXCEPTION` path that reports faults.  Running `progDivZero` reaches the
divide with divisor register `R[0] = 0` and the run ends in `ub`, not in any
`RunResult.fault`. -/
theorem div_zero_unchecked :
    (um_32_steps 1 (startOf progDivZero)).map (fun s => getR s.mach.R 0) = some 0 ∧
    um_32_run 10 (startOf progDivZero) = RunResult.ub := by
  decide

/-- Claim C4: the spec requires Segment Read/Write with `offset >= length(id)`
to fail with an `OutOfBounds` fault.  `ARRAY_INDEX` and `ARRAY_AMEND` check
only the activity of the id and never compare the offset against the
segment's length, then access `M[idx].inst[off]` directly — an out-of-bounds
heap access (undefined behavior).  Running `progReadPastEnd` /
`progWritePastEnd` (segment 1 has length 1, offset is 5) ends in `ub`, not in
any `RunResult.fault`. -/
theorem segment_access_no_bounds_check :
    (um_32_steps 3 (startOf progReadPastEnd)).map
      (fun s => ((s.mach.M.getD 1 mem0).len, getR s.mach.R 2)) = some (1, 5) ∧
    um_32_run 10 (startOf progReadPastEnd) = RunResult.ub ∧
    um_32_run 10 (startOf progWritePastEnd) = RunResult.ub := by
  decide

/-- Claim C5: the spec says an inactive identifier must never be treated as
segment 0, so Load Program with a freed id must fault.  The `LOAD_PROG` case
performs no check at all: in `progLoadFreed`, segment 1 is allocated and then
deallocated, yet the fourth step (Load Program from id 1) completes — after 4
steps the machine is still running and segment 0's storage pointer equals the
freed segment's buffer while that segment is inactive. -/
theorem loadprog_inactive_no_fault :
    (um_32_steps 4 (startOf progLoadFreed)).map
      (fun s => ((s.mach.M.getD 0 mem0).ptr, (s.mach.M.getD 1 mem0).ptr,
        (s.mach.M.getD 1 mem0).active)) = some (1, 1, false) := by
  decide

/-- Claim C6 counterexample: the claim says Output writes exactly one byte,
the low 8 bits of `R[C]`, unconditionally.  With `R[C] = 10` (newline, not
printable) the `OUTPUT` case takes the `printf("0x%02x", c)` branch and
writes the four bytes "0x0a" (ASCII 48, 120, 48, 97), not the single
byte 10. -/
theorem output_nonprintable_four_bytes :
    (um_32_steps 2 (startOf progOutNewline)).map (fun s => s.mach.output) =
      some [48, 120, 48, 97] ∧ ([48, 120, 48, 97] : List Nat) ≠ [10] := by
  decide

/-- Claim C6 as amended: executing Output with `R[C] = v` writes the single
byte `v` if `v` is in the printable ASCII range 0x20..0x7e, and otherwise (for
`v < 256`) writes the four bytes of the rendering `0x%02x` of `v`; for
`v >= 256` the code passes `v` to `isprint` outside its defined domain, which
is undefined behavior, so no byte is written at all in the defined semantics. -/
theorem output_printable_or_hex (s : SpinState) (inst v : Nat)
    (hpc : s.mach.PC < s.m0.len)
    (hbuf : s.mach.PC < (s.mach.buffers.getD s.m0.ptr []).length)
    (hinst : (s.mach.buffers.getD s.m0.ptr []).getD s.mach.PC 0 = inst)
    (hop : opnum inst = 10)
    (hv : getR s.mach.R (reg_c inst) = v) :
    (v < 256 → um_32_step s =
      Outcome.running ⟨{ s.mach with
          PC := (s.mach.PC + 1) % W64
          output := s.mach.output ++ (if isprintC v then [v] else hexOut v) }, s.m0⟩) ∧
    (256 ≤ v → um_32_step s = Outcome.ub) := by
  unfold um_32_step
  simp only [hinst, hop, hv]
  rw [if_neg (Nat.not_le.mpr hpc), if_neg (Nat.not_le.mpr hbuf)]
  rw [if_neg (by decide : ¬(10 : Nat) = 0), if_neg (by decide : ¬(10 : Nat) = 1),
    if_neg (by decide : ¬(10 : Nat) = 2), if_neg (by decide : ¬(10 : Nat) = 3),
    if_neg (by decide : ¬(10 : Nat) = 4), if_neg (by decide : ¬(10 : Nat) = 5),
    if_neg (by decide : ¬(10 : Nat) = 6), if_neg (by decide : ¬(10 : Nat) = 7),
    if_neg (by decide : ¬(10 : Nat) = 8), if_neg (by decide : ¬(10 : Nat) = 9),
    if_pos (trivial : True)]
  constructor
  · intro h256
    rw [if_neg (by omega)]
    split
    · rfl
    · rfl
  · intro h256
    rw [if_pos h256]

/-- State with a single-instruction program `Output R[2]` and `R[2] = 65`,
used to witness `output_printable_or_hex` at a concrete input. -/
def outputWitnessState : SpinState :=
  ⟨{ PC := 0
     R := [0, 0, 65, 0, 0, 0, 0, 0]
     M := [⟨0, 1, true⟩]
     memarrCount := 1
     halted := false
     buffers := [[stdEnc 10 0 0 2]]
     input := []
     output := [] }, ⟨0, 1, true⟩⟩

/-- Witness for `output_printable_or_hex` at the concrete state
`outputWitnessState` with `v = 65`. -/
theorem output_printable_or_hex_witness :
    um_32_step outputWitnessState =
      Outcome.running ⟨{ outputWitnessState.mach with
          PC := (outputWitnessState.mach.PC + 1) % W64
          output := outputWitnessState.mach.output ++
            (if isprintC 65 then [65] else hexOut 65) }, outputWitnessState.m0⟩ :=
  (output_printable_or_hex outputWitnessState (stdEnc 10 0 0 2) 65 (by decide) (by decide)
    (by decide) (by decide) (by decide)).1 (by decide)

/-- Claim C7: the spec requires a `ProgramCounterOutOfBounds` fault whenever
`PC >= length(segment 0)`, including after a Load Program shrank segment 0.
The loop's bounds check compares PC against the cached `m0.len` from loop
entry.  In `progShrinkLoad` the Load Program installs a 1-word segment 0 and
sets PC = 3: after 4 steps PC is 3 and the current segment 0 length is 1
(while the stale cached length is 4), yet 20 further iterations all complete
without any fault — the machine keeps fetching the stale buffer forever. -/
theorem pc_stale_length_no_fault :
    (um_32_steps 4 (startOf progShrinkLoad)).map
      (fun s => (s.mach.PC, (s.mach.M.getD 0 mem0).len, s.m0.len)) = some (3, 1, 4) ∧
    (um_32_steps 24 (startOf progShrinkLoad)).isSome = true := by
  decide

/-- Claim C8: the spec says `allocate(s)` yields a segment of `s` words all 0.
The `ALLOC` case computes the byte count as `R[reg_c] * 4` in uint32
arithmetic, which wraps: for `s = 2^30` it calls `xcalloc(1, 0)` — zero
bytes — while recording `len = 2^30`.  In `progHugeAlloc` the identifier
discipline itself works (the new id is 1), but the new segment's recorded
length is 2^30 while its buffer holds 0 words, and the subsequent read of
offset 0 is an out-of-bounds heap access (`ub`), not the word 0 the claim
promises. -/
theorem alloc_byte_size_wraps :
    (um_32_steps 3 (startOf progHugeAlloc)).map
      (fun s => (getR s.mach.R 1, (s.mach.M.getD 1 mem0).len,
        (s.mach.buffers.getD 1 []).length)) = some (1, 1073741824, 0) ∧
    um_32_run 10 (startOf progHugeAlloc) = RunResult.ub := by
  decide

/-- Claim C9: the spec requires `deallocate(id)` to fault with
`InvalidSegment` whenever `id` is not currently active, which includes ids
never allocated.  The `ABANDON` case evaluates `idx == 0 || !M[idx].active`
with no range check on `idx`: on a fresh machine (`memarr_count = 1`, so only
segment 0 exists) `progAbandonWild` deallocates id 5, and the code reads
`M[5].active` out of the bounds of the table — undefined behavior (`ub`), not
the checked `EXCEPTION` fault.  (The freed-id and `id == 0` paths do reach
the check.) -/
theorem abandon_unallocated_ub :
    (um_32_steps 1 (startOf progAbandonWild)).map
      (fun s => (s.mach.memarrCount, getR s.mach.R 0)) = some (1, 5) ∧
    um_32_run 10 (startOf progAbandonWild) = RunResult.ub := by
  decide

/-- Claim C10: the decoded register fields are 3-bit masks of the instruction
word — standard form A = bits 8..6, B = bits 5..3, C = bits 2..0, special
form A = bits 27..25 — hence always below 8, so no instruction can select a
register outside the 8-entry register file. -/
theorem decoded_registers_lt_8 (inst : Nat) :
    reg_a inst = inst / 64 % 8 ∧ reg_b inst = inst / 8 % 8 ∧ reg_c inst = inst % 8 ∧
    orthog_reg_a inst = inst / 33554432 % 8 ∧
    reg_a inst < 8 ∧ reg_b inst < 8 ∧ reg_c inst < 8 ∧ orthog_reg_a inst < 8 := by
  have h7 : ∀ x : Nat, x &&& 7 = x % 8 := fun x => Nat.and_pow_two_sub_one_eq_mod x 3
  have hs : ∀ x k : Nat, x >>> k = x / 2 ^ k := fun x k => Nat.shiftRight_eq_div_pow x k
  refine ⟨?_, ?_, ?_, ?_, ?_, ?_, ?_, ?_⟩ <;>
    simp [reg_a, reg_b, reg_c, orthog_reg_a, h7, hs] <;> omega
